import Mathlib

/-!
Shallow embedding of the PVC banner generator (src/main.ts).

All geometry in the source is real arithmetic on millimetres and PDF points
(floating point in the source; modelled exactly over ℚ here, since every
operation involved is +, -, *, /, floor).  The layout computed by
`generatePDF` is modelled as a pure `LayoutPlan` value: the drawing calls of
the source, in order, with the numeric arguments they receive.  Font metrics
(`widthOfTextAtSize`) are an external collaborator and are modelled as a
function parameter `measure`.
-/

namespace PdfBanner

/-- src/main.ts `mmToPoints`: converts millimetres to PDF points,
`(mm / 25.4) * 72`. -/
def mmToPoints (mm : ℚ) : ℚ := mm / 25.4 * 72

/-- The inverse conversion, points to millimetres, `pts * 25.4 / 72`
(used inline by the source when logging spacings, lines 183 and 216). -/
def pointsToMm (pts : ℚ) : ℚ := pts * 25.4 / 72

/-- A 4-component CMYK colour value, as passed to `cmyk(c, m, y, k)`. -/
structure Cmyk where
  c : ℚ
  m : ℚ
  y : ℚ
  k : ℚ
deriving DecidableEq, Repr

/-- src/main.ts `getColor`, the `colors` record: the 18 named CMYK colours,
in source order. -/
def colorTable : List (String × Cmyk) :=
  [("black",   ⟨0, 0, 0, 1⟩),
   ("white",   ⟨0, 0, 0, 0⟩),
   ("red",     ⟨0, 1, 1, 0⟩),
   ("blue",    ⟨1, 0, 0, 0⟩),
   ("yellow",  ⟨0, 0, 1, 0⟩),
   ("green",   ⟨1, 0, 1, 0⟩),
   ("orange",  ⟨0, 0.5, 1, 0⟩),
   ("purple",  ⟨0.5, 1, 0, 0⟩),
   ("pink",    ⟨0, 0.7, 0.2, 0⟩),
   ("cyan",    ⟨1, 0, 0.2, 0⟩),
   ("magenta", ⟨0, 1, 0, 0⟩),
   ("lime",    ⟨0.5, 0, 1, 0⟩),
   ("navy",    ⟨1, 0.5, 0, 0.2⟩),
   ("maroon",  ⟨0.2, 1, 1, 0.2⟩),
   ("teal",    ⟨1, 0.2, 0.5, 0⟩),
   ("olive",   ⟨0.3, 0.2, 1, 0.1⟩),
   ("silver",  ⟨0, 0, 0, 0.25⟩),
   ("gold",    ⟨0, 0.2, 0.8, 0.1⟩)]

/-- src/main.ts `getColor`: look the name up in the table;
`colors[colorName] || colors['black']` falls back to the `black` entry for
any unknown name.  (The final arm is unreachable: `"black"` is in the
table.) -/
def getColor (colorName : String) : Cmyk :=
  match colorTable.lookup colorName with
  | some col => col
  | none =>
    match colorTable.lookup "black" with
    | some col => col
    | none => ⟨0, 0, 0, 1⟩

/-- Fixed constant, src/main.ts line 63: 25mm margin. -/
def marginMm : ℚ := 25

/-- Fixed constant, src/main.ts line 64: 0.5mm border. -/
def borderThickness : ℚ := 0.5

/-- src/main.ts line 129: 12mm diameter = 6mm radius, in points. -/
def circleRadius : ℚ := mmToPoints 6

/-- src/main.ts line 130: circle centres sit 37.5mm from the page edge,
in points. -/
def circleOffset : ℚ := mmToPoints 37.5

/-- src/main.ts line 150: minimal spacing between mounting circles, in mm. -/
def minDistanceMm : ℚ := 500

/-- src/main.ts line 151: the minimal spacing converted to points. -/
def minDistance : ℚ := mmToPoints minDistanceMm

/-- A filled rectangle as passed to `page.drawRectangle` (background layer). -/
structure ColoredRect where
  x : ℚ
  y : ℚ
  width : ℚ
  height : ℚ
  color : Cmyk
deriving DecidableEq, Repr

/-- The inner bordered rectangle (src/main.ts lines 111-126). -/
structure PanelRect where
  x : ℚ
  y : ℚ
  width : ℚ
  height : ℚ
  color : Cmyk
  borderColor : Cmyk
  borderWidth : ℚ
deriving DecidableEq, Repr

/-- A circle as passed to `page.drawCircle` (`size` is the radius). -/
structure Circle where
  x : ℚ
  y : ℚ
  size : ℚ
  color : Cmyk
deriving DecidableEq, Repr

/-- One `page.drawText` call: a text line with its baseline position. -/
structure TextRun where
  content : List Char
  x : ℚ
  y : ℚ
  size : ℚ
  color : Cmyk
deriving DecidableEq, Repr

/-- src/main.ts lines 133-138: the `cornerPositions` array
(lower-left, lower-right, upper-left, upper-right). -/
def cornerPositions (width height : ℚ) : List (ℚ × ℚ) :=
  [(circleOffset, circleOffset),
   (width - circleOffset, circleOffset),
   (circleOffset, height - circleOffset),
   (width - circleOffset, height - circleOffset)]

/-- src/main.ts lines 140-147: one `drawCircle` per corner position, in the
foreground colour. -/
def cornerCircles (width height : ℚ) (fg : Cmyk) : List Circle :=
  (cornerPositions width height).map fun pos =>
    { x := pos.1, y := pos.2, size := circleRadius, color := fg }

/-- src/main.ts lines 157 and 190:
`Math.floor(distance / minDistance)` for a distance that is ≥ `minDistance`
(hence nonnegative), as a natural number loop bound. -/
def numIntermediateCircles (distance : ℚ) : ℕ :=
  (⌊distance / minDistance⌋).toNat

/-- src/main.ts lines 160 and 193: `distance / (numIntermediateCircles + 1)`,
the even spacing between circles on one edge. -/
def intermediateSpacing (distance : ℚ) : ℚ :=
  distance / (numIntermediateCircles distance + 1)

/-- src/main.ts lines 153-184: intermediate circles on the top and bottom
edges.  For `i = 1..n` the source draws the top-edge circle then the
bottom-edge circle at `x = circleOffset + i * horizontalSpacing`. -/
def horizontalIntermediateCircles (width height : ℚ) (fg : Cmyk) : List Circle :=
  let horizontalDistance := width - 2 * circleOffset
  if horizontalDistance ≥ minDistance then
    let n := numIntermediateCircles horizontalDistance
    let horizontalSpacing := intermediateSpacing horizontalDistance
    (List.range n).flatMap fun j =>
      let x := circleOffset + ((j : ℚ) + 1) * horizontalSpacing
      [{ x := x, y := height - circleOffset, size := circleRadius, color := fg },
       { x := x, y := circleOffset, size := circleRadius, color := fg }]
  else []

/-- src/main.ts lines 186-217: intermediate circles on the left and right
edges.  For `i = 1..n` the source draws the left-edge circle then the
right-edge circle at `y = circleOffset + i * verticalSpacing`. -/
def verticalIntermediateCircles (width height : ℚ) (fg : Cmyk) : List Circle :=
  let verticalDistance := height - 2 * circleOffset
  if verticalDistance ≥ minDistance then
    let n := numIntermediateCircles verticalDistance
    let verticalSpacing := intermediateSpacing verticalDistance
    (List.range n).flatMap fun j =>
      let y := circleOffset + ((j : ℚ) + 1) * verticalSpacing
      [{ x := circleOffset, y := y, size := circleRadius, color := fg },
       { x := width - circleOffset, y := y, size := circleRadius, color := fg }]
  else []

/-- src/main.ts line 222: `text.split('\n')`.  JavaScript semantics for a
single-character separator: splitting the empty string gives `[""]`, and a
text with k separators yields k+1 parts (empty parts included). -/
def splitOnNewline : List Char → List (List Char)
  | [] => [[]]
  | ch :: cs =>
    if ch = '\n' then [] :: splitOnNewline cs
    else
      match splitOnNewline cs with
      | [] => [[ch]]
      | l :: ls => (ch :: l) :: ls

/-- src/main.ts line 221: `lineSpacing = fontSize * 1.3`. -/
def lineSpacingOf (fontSize : ℚ) : ℚ := fontSize * 1.3

/-- src/main.ts line 227: `totalTextHeight = (totalLines - 1) * lineSpacing
+ fontSize`. -/
def totalTextHeightOf (totalLines : ℕ) (fontSize : ℚ) : ℚ :=
  ((totalLines : ℚ) - 1) * lineSpacingOf fontSize + fontSize

/-- src/main.ts lines 235-260: the baseline of the first text line.
Centred mode (lines 237-256): page middle plus half the block height, minus
the visual-centre offset `fontSize * 0.35` and the half-line adjustment
`lineSpacing * 0.5`.  Left-aligned mode (line 259): `height - mmToPoints(25)`. -/
def startYOf (centerText : Bool) (height fontSize : ℚ) (totalLines : ℕ) : ℚ :=
  if centerText then
    let middleOfPage := height / 2
    let totalBlockHeight := totalTextHeightOf totalLines fontSize
    let halfLineHeight := lineSpacingOf fontSize * 0.5
    let visualCenterOffset := fontSize * 0.35
    middleOfPage + totalBlockHeight / 2 - visualCenterOffset - halfLineHeight
  else
    height - mmToPoints 25

/-- src/main.ts lines 219-286: the `drawText` calls, one per line of
`text.split('\n')`, in order.  `measure` models the font collaborator
`customFont.widthOfTextAtSize(line, fontSize)`.  Line `index` is drawn at
`lineY = startY - index * lineSpacing`; centred text puts each line at
`(width - lineWidths[index]) / 2`, left-aligned text at
`mmToPoints(marginMm + 5)`. -/
def textRuns (measure : List Char → ℚ → ℚ) (text : List Char)
    (width height : ℚ) (centerText : Bool) (fontSizeMm : ℚ) (fg : Cmyk) :
    List TextRun :=
  let fontSize := mmToPoints fontSizeMm
  let lineSpacing := lineSpacingOf fontSize
  let lines := splitOnNewline text
  let lineWidths := lines.map fun line => measure line fontSize
  let startY := startYOf centerText height fontSize lines.length
  (lines.zip lineWidths).enum.map fun p =>
    let index := p.1
    let line := p.2.1
    let lineWidth := p.2.2
    let lineY := startY - (index : ℚ) * lineSpacing
    let lineX := if centerText then (width - lineWidth) / 2
                 else mmToPoints (marginMm + 5)
    { content := line, x := lineX, y := lineY, size := fontSize, color := fg }

/-- The LayoutPlan: every drawing primitive `generatePDF` emits, in order,
with the numeric arguments the source computes. -/
structure LayoutPlan where
  background : ColoredRect
  panel : PanelRect
  circles : List Circle
  textLines : List TextRun
deriving DecidableEq, Repr

/-- src/main.ts `generatePDF` (lines 52-293), layout part: page size is the
banner size converted to points; the base layer is a full-page white
rectangle; the panel is inset by the 25mm margin, filled with the background
colour and stroked with the foreground colour at 0.5mm; circles are the 4
corners, then the horizontal intermediates, then the vertical intermediates;
text runs as in `textRuns`. -/
def generatePlan (measure : List Char → ℚ → ℚ) (text : List Char)
    (widthMm heightMm : ℚ) (centerText : Bool) (fontSizeMm : ℚ)
    (foregroundColor backgroundColor : String) : LayoutPlan :=
  let width := mmToPoints widthMm
  let height := mmToPoints heightMm
  let fg := getColor foregroundColor
  let bg := getColor backgroundColor
  let margin := mmToPoints marginMm
  { background := { x := 0, y := 0, width := width, height := height,
                    color := ⟨0, 0, 0, 0⟩ },
    panel := { x := margin, y := margin,
               width := width - 2 * margin, height := height - 2 * margin,
               color := bg, borderColor := fg,
               borderWidth := mmToPoints borderThickness },
    circles := cornerCircles width height fg
      ++ horizontalIntermediateCircles width height fg
      ++ verticalIntermediateCircles width height fg,
    textLines := textRuns measure text width height centerText fontSizeMm fg }

/-! ### Conversion algebra -/

lemma mmToPoints_eq (mm : ℚ) : mmToPoints mm = mm * (360 / 127) := by
  unfold mmToPoints
  norm_num
  ring

lemma pointsToMm_mmToPoints (x : ℚ) : pointsToMm (mmToPoints x) = x := by
  unfold pointsToMm mmToPoints
  norm_num
  ring

lemma mmToPoints_sub (a b : ℚ) :
    mmToPoints (a - b) = mmToPoints a - mmToPoints b := by
  simp only [mmToPoints_eq]
  ring

lemma mmToPoints_add (a b : ℚ) :
    mmToPoints (a + b) = mmToPoints a + mmToPoints b := by
  simp only [mmToPoints_eq]
  ring

lemma mmToPoints_mul_left (c a : ℚ) : c * mmToPoints a = mmToPoints (c * a) := by
  simp only [mmToPoints_eq]
  ring

lemma mmToPoints_le_iff {a b : ℚ} : mmToPoints a ≤ mmToPoints b ↔ a ≤ b := by
  rw [mmToPoints_eq, mmToPoints_eq,
    mul_le_mul_right (by norm_num : (0 : ℚ) < 360 / 127)]

lemma mmToPoints_lt_iff {a b : ℚ} : mmToPoints a < mmToPoints b ↔ a < b := by
  rw [mmToPoints_eq, mmToPoints_eq,
    mul_lt_mul_right (by norm_num : (0 : ℚ) < 360 / 127)]

lemma mmToPoints_div_mmToPoints (a b : ℚ) (_hb : b ≠ 0) :
    mmToPoints a / mmToPoints b = a / b := by
  rw [mmToPoints_eq, mmToPoints_eq, mul_div_mul_right]
  norm_num

lemma mmToPoints_pos {a : ℚ} (h : 0 < a) : 0 < mmToPoints a := by
  rw [mmToPoints_eq]
  exact mul_pos h (by norm_num)

/-! ### Bridging the point-valued circle computations back to millimetres -/

lemma span_sub (wMm : ℚ) :
    mmToPoints wMm - 2 * circleOffset = mmToPoints (wMm - 75) := by
  unfold circleOffset
  simp only [mmToPoints_eq]
  norm_num
  ring

lemma numIntermediateCircles_mm (spanMm : ℚ) :
    numIntermediateCircles (mmToPoints spanMm) = (⌊spanMm / 500⌋).toNat := by
  unfold numIntermediateCircles minDistance minDistanceMm
  rw [mmToPoints_div_mmToPoints _ _ (by norm_num)]

lemma intermediateSpacing_mm (spanMm : ℚ) :
    intermediateSpacing (mmToPoints spanMm) =
      mmToPoints (spanMm / (((⌊spanMm / 500⌋).toNat : ℚ) + 1)) := by
  unfold intermediateSpacing
  rw [numIntermediateCircles_mm]
  simp only [mmToPoints_eq]
  ring

lemma circleOffset_add_mul (c s : ℚ) :
    circleOffset + c * mmToPoints s = mmToPoints (37.5 + c * s) := by
  unfold circleOffset
  simp only [mmToPoints_eq]
  ring

/-! ### Splitting text on line breaks -/

lemma splitOnNewline_ne_nil (cs : List Char) : splitOnNewline cs ≠ [] := by
  induction cs with
  | nil => simp [splitOnNewline]
  | cons ch cs ih =>
    unfold splitOnNewline
    by_cases h : ch = '\n'
    · simp [h]
    · simp only [h, if_false]
      cases hsp : splitOnNewline cs with
      | nil => simp
      | cons l ls => simp

lemma splitOnNewline_length (cs : List Char) :
    (splitOnNewline cs).length = cs.count '\n' + 1 := by
  induction cs with
  | nil => rfl
  | cons ch cs ih =>
    unfold splitOnNewline
    by_cases h : ch = '\n'
    · simp [h, if_true, List.length_cons, List.count_cons, ih]
    · cases hsp : splitOnNewline cs with
      | nil => exact absurd hsp (splitOnNewline_ne_nil cs)
      | cons l ls =>
        rw [hsp] at ih
        have hne : (ch == '\n') = false := by
          simp only [beq_eq_false_iff_ne, ne_eq]
          exact h
        rw [if_neg h]
        show ((ch :: l) :: ls).length = List.count '\n' (ch :: cs) + 1
        simp [List.count_cons, hne] at ih ⊢
        omega

/-! ### Indexing the text runs -/

lemma textRuns_length (measure : List Char → ℚ → ℚ) (text : List Char)
    (width height : ℚ) (centerText : Bool) (fontSizeMm : ℚ) (fg : Cmyk) :
    (textRuns measure text width height centerText fontSizeMm fg).length =
      (splitOnNewline text).length := by
  unfold textRuns
  simp

lemma textRuns_get (measure : List Char → ℚ → ℚ) (text : List Char)
    (width height : ℚ) (centerText : Bool) (fontSizeMm : ℚ) (fg : Cmyk)
    (i : ℕ) (hi : i < (textRuns measure text width height centerText fontSizeMm fg).length) :
    (textRuns measure text width height centerText fontSizeMm fg).get ⟨i, hi⟩ =
      { content := (splitOnNewline text).get
          ⟨i, by rwa [textRuns_length] at hi⟩,
        x := if centerText then
            (width - measure ((splitOnNewline text).get
              ⟨i, by rwa [textRuns_length] at hi⟩) (mmToPoints fontSizeMm)) / 2
          else mmToPoints (marginMm + 5),
        y := startYOf centerText height (mmToPoints fontSizeMm)
              (splitOnNewline text).length
            - (i : ℚ) * lineSpacingOf (mmToPoints fontSizeMm),
        size := mmToPoints fontSizeMm,
        color := fg } := by
  unfold textRuns
  simp [List.getElem_zip, List.getElem_enum]

/-! ### Generic list helpers -/

lemma flatMap_congrFun {α β : Type} {f g : α → List β}
    (h : ∀ a, f a = g a) (l : List α) : l.flatMap f = l.flatMap g := by
  induction l with
  | nil => rfl
  | cons a t ih => simp only [List.flatMap_cons, h a, ih]

lemma lookup_eq_none_of_not_mem_keys {β : Type} (l : List (String × β))
    (s : String) (h : s ∉ l.map Prod.fst) : l.lookup s = none := by
  induction l with
  | nil => rfl
  | cons p t ih =>
    simp only [List.map_cons, List.mem_cons, not_or] at h
    rw [List.lookup_cons]
    have hne : (s == p.1) = false := by
      simp only [beq_eq_false_iff_ne, ne_eq]
      exact h.1
    rw [hne]
    exact ih h.2

/-! ### Characterising the intermediate circles in millimetres -/

lemma horizontal_empty (wMm hMm : ℚ) (fg : Cmyk) (hlt : wMm - 75 < 500) :
    horizontalIntermediateCircles (mmToPoints wMm) (mmToPoints hMm) fg = [] := by
  simp only [horizontalIntermediateCircles]
  rw [span_sub, if_neg]
  show ¬ minDistance ≤ mmToPoints (wMm - 75)
  unfold minDistance minDistanceMm
  rw [mmToPoints_le_iff]
  linarith

lemma horizontal_char (wMm hMm : ℚ) (fg : Cmyk) (hge : 500 ≤ wMm - 75) :
    horizontalIntermediateCircles (mmToPoints wMm) (mmToPoints hMm) fg =
      (List.range ((⌊(wMm - 75) / 500⌋).toNat)).flatMap fun j =>
        [{ x := mmToPoints (37.5 + ((j : ℚ) + 1) *
              ((wMm - 75) / (((⌊(wMm - 75) / 500⌋).toNat : ℚ) + 1))),
           y := mmToPoints hMm - mmToPoints 37.5,
           size := mmToPoints 6, color := fg },
         { x := mmToPoints (37.5 + ((j : ℚ) + 1) *
              ((wMm - 75) / (((⌊(wMm - 75) / 500⌋).toNat : ℚ) + 1))),
           y := mmToPoints 37.5, size := mmToPoints 6, color := fg }] := by
  simp only [horizontalIntermediateCircles]
  rw [span_sub, if_pos]
  · rw [numIntermediateCircles_mm, intermediateSpacing_mm]
    apply flatMap_congrFun
    intro j
    rw [circleOffset_add_mul]
    rfl
  · show minDistance ≤ mmToPoints (wMm - 75)
    unfold minDistance minDistanceMm
    exact mmToPoints_le_iff.mpr hge

lemma vertical_empty (wMm hMm : ℚ) (fg : Cmyk) (hlt : hMm - 75 < 500) :
    verticalIntermediateCircles (mmToPoints wMm) (mmToPoints hMm) fg = [] := by
  simp only [verticalIntermediateCircles]
  rw [span_sub, if_neg]
  show ¬ minDistance ≤ mmToPoints (hMm - 75)
  unfold minDistance minDistanceMm
  rw [mmToPoints_le_iff]
  linarith

lemma vertical_char (wMm hMm : ℚ) (fg : Cmyk) (hge : 500 ≤ hMm - 75) :
    verticalIntermediateCircles (mmToPoints wMm) (mmToPoints hMm) fg =
      (List.range ((⌊(hMm - 75) / 500⌋).toNat)).flatMap fun j =>
        [{ x := mmToPoints 37.5,
           y := mmToPoints (37.5 + ((j : ℚ) + 1) *
              ((hMm - 75) / (((⌊(hMm - 75) / 500⌋).toNat : ℚ) + 1))),
           size := mmToPoints 6, color := fg },
         { x := mmToPoints wMm - mmToPoints 37.5,
           y := mmToPoints (37.5 + ((j : ℚ) + 1) *
              ((hMm - 75) / (((⌊(hMm - 75) / 500⌋).toNat : ℚ) + 1))),
           size := mmToPoints 6, color := fg }] := by
  simp only [verticalIntermediateCircles]
  rw [span_sub, if_pos]
  · rw [numIntermediateCircles_mm, intermediateSpacing_mm]
    apply flatMap_congrFun
    intro j
    rw [circleOffset_add_mul]
    rfl
  · show minDistance ≤ mmToPoints (hMm - 75)
    unfold minDistance minDistanceMm
    exact mmToPoints_le_iff.mpr hge

/-! ### Claim theorems -/

/-- C1: Intermediate mounting-circle distribution.  Per axis, with
span = dimension - 2*37.5: if span < 500 no intermediate circles are placed;
otherwise count = floor(span/500) circles per edge at interior offsets
37.5 + i*span/(count+1) for i = 1..count, each position on both parallel
edges.  For width 3000, height 700 this gives 5 circles per horizontal edge
with spacing 487.5mm and 1 per vertical edge with spacing 312.5mm. -/
theorem c1_intermediate_circle_distribution (widthMm heightMm : ℚ) (fg : Cmyk) :
    (widthMm - 2 * 37.5 < 500 →
      horizontalIntermediateCircles (mmToPoints widthMm) (mmToPoints heightMm) fg = []) ∧
    (500 ≤ widthMm - 2 * 37.5 →
      horizontalIntermediateCircles (mmToPoints widthMm) (mmToPoints heightMm) fg =
        (List.range ((⌊(widthMm - 2 * 37.5) / 500⌋).toNat)).flatMap fun j =>
          [{ x := mmToPoints (37.5 + ((j : ℚ) + 1) *
                ((widthMm - 2 * 37.5) / (((⌊(widthMm - 2 * 37.5) / 500⌋).toNat : ℚ) + 1))),
             y := mmToPoints heightMm - mmToPoints 37.5,
             size := mmToPoints 6, color := fg },
           { x := mmToPoints (37.5 + ((j : ℚ) + 1) *
                ((widthMm - 2 * 37.5) / (((⌊(widthMm - 2 * 37.5) / 500⌋).toNat : ℚ) + 1))),
             y := mmToPoints 37.5, size := mmToPoints 6, color := fg }]) ∧
    (heightMm - 2 * 37.5 < 500 →
      verticalIntermediateCircles (mmToPoints widthMm) (mmToPoints heightMm) fg = []) ∧
    (500 ≤ heightMm - 2 * 37.5 →
      verticalIntermediateCircles (mmToPoints widthMm) (mmToPoints heightMm) fg =
        (List.range ((⌊(heightMm - 2 * 37.5) / 500⌋).toNat)).flatMap fun j =>
          [{ x := mmToPoints 37.5,
             y := mmToPoints (37.5 + ((j : ℚ) + 1) *
                ((heightMm - 2 * 37.5) / (((⌊(heightMm - 2 * 37.5) / 500⌋).toNat : ℚ) + 1))),
             size := mmToPoints 6, color := fg },
           { x := mmToPoints widthMm - mmToPoints 37.5,
             y := mmToPoints (37.5 + ((j : ℚ) + 1) *
                ((heightMm - 2 * 37.5) / (((⌊(heightMm - 2 * 37.5) / 500⌋).toNat : ℚ) + 1))),
             size := mmToPoints 6, color := fg }]) ∧
    horizontalIntermediateCircles (mmToPoints 3000) (mmToPoints 700) fg =
      [{ x := mmToPoints (37.5 + 487.5), y := mmToPoints 700 - mmToPoints 37.5,
         size := mmToPoints 6, color := fg },
       { x := mmToPoints (37.5 + 487.5), y := mmToPoints 37.5,
         size := mmToPoints 6, color := fg },
       { x := mmToPoints (37.5 + 2 * 487.5), y := mmToPoints 700 - mmToPoints 37.5,
         size := mmToPoints 6, color := fg },
       { x := mmToPoints (37.5 + 2 * 487.5), y := mmToPoints 37.5,
         size := mmToPoints 6, color := fg },
       { x := mmToPoints (37.5 + 3 * 487.5), y := mmToPoints 700 - mmToPoints 37.5,
         size := mmToPoints 6, color := fg },
       { x := mmToPoints (37.5 + 3 * 487.5), y := mmToPoints 37.5,
         size := mmToPoints 6, color := fg },
       { x := mmToPoints (37.5 + 4 * 487.5), y := mmToPoints 700 - mmToPoints 37.5,
         size := mmToPoints 6, color := fg },
       { x := mmToPoints (37.5 + 4 * 487.5), y := mmToPoints 37.5,
         size := mmToPoints 6, color := fg },
       { x := mmToPoints (37.5 + 5 * 487.5), y := mmToPoints 700 - mmToPoints 37.5,
         size := mmToPoints 6, color := fg },
       { x := mmToPoints (37.5 + 5 * 487.5), y := mmToPoints 37.5,
         size := mmToPoints 6, color := fg }] ∧
    verticalIntermediateCircles (mmToPoints 3000) (mmToPoints 700) fg =
      [{ x := mmToPoints 37.5, y := mmToPoints (37.5 + 312.5),
         size := mmToPoints 6, color := fg },
       { x := mmToPoints 3000 - mmToPoints 37.5, y := mmToPoints (37.5 + 312.5),
         size := mmToPoints 6, color := fg }] := by
  refine ⟨?_, ?_, ?_, ?_, ?_, ?_⟩
  · intro h
    exact horizontal_empty widthMm heightMm fg (by linarith)
  · intro h
    have := horizontal_char widthMm heightMm fg (by linarith)
    rw [this]
    norm_num
  · intro h
    exact vertical_empty widthMm heightMm fg (by linarith)
  · intro h
    have := vertical_char widthMm heightMm fg (by linarith)
    rw [this]
    norm_num
  · rw [horizontal_char 3000 700 fg (by norm_num)]
    norm_num [show Int.toNat 5 = 5 from rfl, List.range_succ]
  · rw [vertical_char 3000 700 fg (by norm_num)]
    norm_num [show Int.toNat 1 = 1 from rfl, List.range_succ]

/-- Witness for C1 at width 3000, height 700: the concrete horizontal edge
carries exactly 10 intermediate circle draws (5 positions on each of the two
edges). -/
theorem c1_witness :
    (horizontalIntermediateCircles (mmToPoints 3000) (mmToPoints 700)
        ⟨0, 0, 0, 1⟩).length = 10 ∧
    (verticalIntermediateCircles (mmToPoints 3000) (mmToPoints 700)
        ⟨0, 0, 0, 1⟩).length = 2 := by
  have h := c1_intermediate_circle_distribution 3000 700 ⟨0, 0, 0, 1⟩
  rw [h.2.2.2.2.1, h.2.2.2.2.2]
  exact ⟨rfl, rfl⟩

lemma size_of_mem_horizontal {w h : ℚ} {fg : Cmyk} {circle : Circle}
    (hc : circle ∈ horizontalIntermediateCircles w h fg) :
    circle.size = circleRadius := by
  simp only [horizontalIntermediateCircles] at hc
  by_cases hcond : w - 2 * circleOffset ≥ minDistance
  · rw [if_pos hcond] at hc
    simp only [List.mem_flatMap, List.mem_cons, List.not_mem_nil, or_false] at hc
    obtain ⟨j, _, hm⟩ := hc
    rcases hm with rfl | rfl <;> rfl
  · rw [if_neg hcond] at hc
    exact absurd hc (List.not_mem_nil circle)

lemma size_of_mem_vertical {w h : ℚ} {fg : Cmyk} {circle : Circle}
    (hc : circle ∈ verticalIntermediateCircles w h fg) :
    circle.size = circleRadius := by
  simp only [verticalIntermediateCircles] at hc
  by_cases hcond : h - 2 * circleOffset ≥ minDistance
  · rw [if_pos hcond] at hc
    simp only [List.mem_flatMap, List.mem_cons, List.not_mem_nil, or_false] at hc
    obtain ⟨j, _, hm⟩ := hc
    rcases hm with rfl | rfl <;> rfl
  · rw [if_neg hcond] at hc
    exact absurd hc (List.not_mem_nil circle)

/-- C3: Corner-circle invariant.  For every banner size the plan starts with
exactly the 4 corner circles, centred 37.5mm (converted) from their two
nearest edges, and every circle in the plan has the single fixed radius
6mm (12mm diameter). -/
theorem c3_corner_circle_invariant (measure : List Char → ℚ → ℚ)
    (text : List Char) (widthMm heightMm : ℚ) (centerText : Bool)
    (fontSizeMm : ℚ) (fgName bgName : String) :
    (generatePlan measure text widthMm heightMm centerText fontSizeMm
        fgName bgName).circles.take 4 =
      [{ x := mmToPoints 37.5, y := mmToPoints 37.5,
         size := mmToPoints 6, color := getColor fgName },
       { x := mmToPoints widthMm - mmToPoints 37.5, y := mmToPoints 37.5,
         size := mmToPoints 6, color := getColor fgName },
       { x := mmToPoints 37.5, y := mmToPoints heightMm - mmToPoints 37.5,
         size := mmToPoints 6, color := getColor fgName },
       { x := mmToPoints widthMm - mmToPoints 37.5,
         y := mmToPoints heightMm - mmToPoints 37.5,
         size := mmToPoints 6, color := getColor fgName }] ∧
    ∀ circle ∈ (generatePlan measure text widthMm heightMm centerText
        fontSizeMm fgName bgName).circles, circle.size = mmToPoints 6 := by
  constructor
  · rfl
  · intro circle hc
    simp only [generatePlan, List.mem_append] at hc
    rcases hc with (hc | hc) | hc
    · simp only [cornerCircles, cornerPositions, List.map_cons, List.map_nil,
        List.mem_cons, List.not_mem_nil, or_false] at hc
      rcases hc with rfl | rfl | rfl | rfl <;> rfl
    · exact size_of_mem_horizontal hc
    · exact size_of_mem_vertical hc

/-- Witness for C3 at a concrete banner: the four corner draws of the
1000x700mm default banner. -/
theorem c3_witness :
    ((generatePlan (fun _ _ => (0 : ℚ)) [] 1000 700 true 25 "black"
        "yellow").circles.take 4).length = 4 ∧
    ∀ circle ∈ (generatePlan (fun _ _ => (0 : ℚ)) [] 1000 700 true 25 "black"
        "yellow").circles, circle.size = mmToPoints 6 := by
  have h := c3_corner_circle_invariant (fun _ _ => (0 : ℚ)) [] 1000 700 true
    25 "black" "yellow"
  exact ⟨by rw [h.1]; rfl, h.2⟩

/-- C4: Colour resolution.  The colour table defines exactly the 18 listed
names, every component of every tuple lies in [0,1], and any string that is
not one of the 18 names resolves to the same tuple as "black",
namely (0,0,0,1), with no failure. -/
theorem c4_color_resolution :
    colorTable.length = 18 ∧
    colorTable.map Prod.fst =
      ["black", "white", "red", "blue", "yellow", "green", "orange", "purple",
       "pink", "cyan", "magenta", "lime", "navy", "maroon", "teal", "olive",
       "silver", "gold"] ∧
    (∀ p ∈ colorTable,
      0 ≤ p.2.c ∧ p.2.c ≤ 1 ∧ 0 ≤ p.2.m ∧ p.2.m ≤ 1 ∧
      0 ≤ p.2.y ∧ p.2.y ≤ 1 ∧ 0 ≤ p.2.k ∧ p.2.k ≤ 1) ∧
    (∀ s : String, s ∉ colorTable.map Prod.fst →
      getColor s = getColor "black") ∧
    getColor "black" = ⟨0, 0, 0, 1⟩ := by
  refine ⟨rfl, rfl, ?_, ?_, rfl⟩
  · intro p hp
    simp only [colorTable, List.mem_cons, List.not_mem_nil, or_false] at hp
    rcases hp with rfl | rfl | rfl | rfl | rfl | rfl | rfl | rfl | rfl | rfl |
      rfl | rfl | rfl | rfl | rfl | rfl | rfl | rfl <;> norm_num
  · intro s hs
    unfold getColor
    rw [lookup_eq_none_of_not_mem_keys _ _ hs]
    rfl

/-- Witness for C4: an unknown colour name resolves to black's tuple. -/
theorem c4_witness : getColor "chartreuse" = ⟨0, 0, 0, 1⟩ := by
  have h := c4_color_resolution
  rw [h.2.2.2.1 "chartreuse" (by decide)]
  exact h.2.2.2.2

/-- C5: Intermediate-spacing bound.  For span ≥ 500mm with
count = floor(span/500), the realised spacing span/(count+1) is at least
500*count/(count+1) millimetres; for span = 2925mm it is 487.5mm, which is
strictly below the nominal 500mm minimum. -/
theorem c5_intermediate_spacing_bound (spanMm : ℚ) (hspan : 500 ≤ spanMm) :
    ((numIntermediateCircles (mmToPoints spanMm) : ℤ) = ⌊spanMm / 500⌋) ∧
    500 * ((numIntermediateCircles (mmToPoints spanMm) : ℚ) /
        ((numIntermediateCircles (mmToPoints spanMm) : ℚ) + 1)) ≤
      pointsToMm (intermediateSpacing (mmToPoints spanMm)) ∧
    (spanMm = 2925 →
      pointsToMm (intermediateSpacing (mmToPoints spanMm)) = 487.5 ∧
      pointsToMm (intermediateSpacing (mmToPoints spanMm)) < 500) := by
  have hfloor_nonneg : (0 : ℤ) ≤ ⌊spanMm / 500⌋ := by
    apply Int.floor_nonneg.mpr
    positivity
  have hcast : ((numIntermediateCircles (mmToPoints spanMm) : ℤ)) =
      ⌊spanMm / 500⌋ := by
    rw [numIntermediateCircles_mm, Int.toNat_of_nonneg hfloor_nonneg]
  have hcastQ : ((numIntermediateCircles (mmToPoints spanMm) : ℚ)) =
      ((⌊spanMm / 500⌋ : ℤ) : ℚ) := by
    exact_mod_cast hcast
  have hspacing : pointsToMm (intermediateSpacing (mmToPoints spanMm)) =
      spanMm / ((numIntermediateCircles (mmToPoints spanMm) : ℚ) + 1) := by
    rw [intermediateSpacing_mm, pointsToMm_mmToPoints, numIntermediateCircles_mm]
  refine ⟨hcast, ?_, ?_⟩
  · rw [hspacing, hcastQ]
    have hden : (0 : ℚ) < ((⌊spanMm / 500⌋ : ℤ) : ℚ) + 1 := by
      have : (0 : ℚ) ≤ ((⌊spanMm / 500⌋ : ℤ) : ℚ) := by exact_mod_cast hfloor_nonneg
      linarith
    have hfle : ((⌊spanMm / 500⌋ : ℤ) : ℚ) ≤ spanMm / 500 := Int.floor_le _
    have h500f : 500 * ((⌊spanMm / 500⌋ : ℤ) : ℚ) ≤ spanMm := by nlinarith
    have heq : 500 * (((⌊spanMm / 500⌋ : ℤ) : ℚ) /
        (((⌊spanMm / 500⌋ : ℤ) : ℚ) + 1)) =
        (500 * ((⌊spanMm / 500⌋ : ℤ) : ℚ)) /
          (((⌊spanMm / 500⌋ : ℤ) : ℚ) + 1) := by ring
    rw [heq]
    exact (div_le_div_iff_of_pos_right hden).mpr h500f
  · intro hsp
    subst hsp
    rw [hspacing]
    have h5 : (numIntermediateCircles (mmToPoints 2925) : ℚ) = 5 := by
      rw [numIntermediateCircles_mm]
      norm_num
      rfl
    rw [h5]
    norm_num

/-- Witness for C5 at span 2925mm: spacing is exactly 487.5mm, strictly
below 500mm. -/
theorem c5_witness :
    (500 : ℚ) ≤ 2925 ∧
    pointsToMm (intermediateSpacing (mmToPoints 2925)) = 487.5 ∧
    pointsToMm (intermediateSpacing (mmToPoints 2925)) < 500 := by
  have h := c5_intermediate_spacing_bound 2925 (by norm_num)
  exact ⟨by norm_num, h.2.2 rfl⟩

/-- C2: Centred-mode text layout.  With center_text = true, line i's
baseline is startY - i*lineSpacing where
startY = pageHeight/2 + totalTextHeight/2 - fontSize*0.35 - lineSpacing*0.5,
lineSpacing = fontSize*1.3 and
totalTextHeight = (numberOfLines - 1)*lineSpacing + fontSize; each line is
centred using its own measured width, lineX = (pageWidth - lineWidth_i)/2. -/
theorem c2_centered_text_layout (measure : List Char → ℚ → ℚ)
    (text : List Char) (pageWidth pageHeight fontSizeMm : ℚ) (fg : Cmyk)
    (i : ℕ)
    (hi : i < (textRuns measure text pageWidth pageHeight true fontSizeMm
        fg).length) :
    ((textRuns measure text pageWidth pageHeight true fontSizeMm fg).get
        ⟨i, hi⟩).y =
      pageHeight / 2 +
          ((((splitOnNewline text).length : ℚ) - 1) *
              (mmToPoints fontSizeMm * 1.3) + mmToPoints fontSizeMm) / 2 -
          mmToPoints fontSizeMm * 0.35 - mmToPoints fontSizeMm * 1.3 * 0.5 -
          (i : ℚ) * (mmToPoints fontSizeMm * 1.3) ∧
    ((textRuns measure text pageWidth pageHeight true fontSizeMm fg).get
        ⟨i, hi⟩).x =
      (pageWidth - measure ((splitOnNewline text).get
          ⟨i, by rwa [textRuns_length] at hi⟩) (mmToPoints fontSizeMm)) / 2 := by
  rw [textRuns_get]
  constructor
  · show startYOf true pageHeight (mmToPoints fontSizeMm)
        (splitOnNewline text).length -
        (i : ℚ) * lineSpacingOf (mmToPoints fontSizeMm) = _
    simp only [startYOf, totalTextHeightOf, lineSpacingOf, if_true]
  · simp only [if_true]

/-- Witness for C2: a single empty line on a 100x200 point page with a
zero-width measurer is centred at x = 50. -/
theorem c2_witness :
    ((textRuns (fun _ _ => (0 : ℚ)) [] 100 200 true 25 ⟨0, 0, 0, 1⟩).get
        ⟨0, by rw [textRuns_length]; exact Nat.one_pos⟩).x = 50 := by
  have h := c2_centered_text_layout (fun _ _ => (0 : ℚ)) [] 100 200 25
    ⟨0, 0, 0, 1⟩ 0 (by rw [textRuns_length]; exact Nat.one_pos)
  rw [h.2]
  norm_num

/-- C6: Text line count and vertical progression.  A text with k line-break
characters produces exactly k+1 runs; run i sits at
startY - i*lineSpacing with lineSpacing = fontSize*1.3, so consecutive
baselines strictly decrease by exactly lineSpacing; a single-line input
yields one run and totalTextHeight = fontSize. -/
theorem c6_text_line_progression (measure : List Char → ℚ → ℚ)
    (text : List Char) (pageWidth pageHeight : ℚ) (centerText : Bool)
    (fontSizeMm : ℚ) (fg : Cmyk) (hfs : 0 < fontSizeMm) :
    (textRuns measure text pageWidth pageHeight centerText fontSizeMm
        fg).length = text.count '\n' + 1 ∧
    (∀ i : ℕ, ∀ hi : i < (textRuns measure text pageWidth pageHeight
        centerText fontSizeMm fg).length,
      ((textRuns measure text pageWidth pageHeight centerText fontSizeMm
          fg).get ⟨i, hi⟩).y =
        startYOf centerText pageHeight (mmToPoints fontSizeMm)
            (splitOnNewline text).length -
          (i : ℚ) * (mmToPoints fontSizeMm * 1.3)) ∧
    (∀ i : ℕ, ∀ hi : i + 1 < (textRuns measure text pageWidth pageHeight
        centerText fontSizeMm fg).length,
      ((textRuns measure text pageWidth pageHeight centerText fontSizeMm
            fg).get ⟨i, by omega⟩).y -
          ((textRuns measure text pageWidth pageHeight centerText fontSizeMm
            fg).get ⟨i + 1, hi⟩).y = mmToPoints fontSizeMm * 1.3 ∧
      ((textRuns measure text pageWidth pageHeight centerText fontSizeMm
            fg).get ⟨i + 1, hi⟩).y <
          ((textRuns measure text pageWidth pageHeight centerText fontSizeMm
            fg).get ⟨i, by omega⟩).y) ∧
    (text.count '\n' = 0 →
      (textRuns measure text pageWidth pageHeight centerText fontSizeMm
          fg).length = 1 ∧
      totalTextHeightOf (splitOnNewline text).length (mmToPoints fontSizeMm) =
        mmToPoints fontSizeMm) := by
  have hlen : (textRuns measure text pageWidth pageHeight centerText
      fontSizeMm fg).length = text.count '\n' + 1 := by
    rw [textRuns_length, splitOnNewline_length]
  have hy : ∀ i : ℕ, ∀ hi : i < (textRuns measure text pageWidth pageHeight
      centerText fontSizeMm fg).length,
      ((textRuns measure text pageWidth pageHeight centerText fontSizeMm
          fg).get ⟨i, hi⟩).y =
        startYOf centerText pageHeight (mmToPoints fontSizeMm)
            (splitOnNewline text).length -
          (i : ℚ) * (mmToPoints fontSizeMm * 1.3) := by
    intro i hi
    rw [textRuns_get]
    simp only [lineSpacingOf]
  have hpos : 0 < mmToPoints fontSizeMm * 1.3 :=
    mul_pos (mmToPoints_pos hfs) (by norm_num)
  refine ⟨hlen, hy, ?_, ?_⟩
  · intro i hi
    rw [hy i (by omega), hy (i + 1) hi]
    constructor
    · push_cast
      ring
    · have : ((i : ℚ) + 1) * (mmToPoints fontSizeMm * 1.3) >
          (i : ℚ) * (mmToPoints fontSizeMm * 1.3) := by
        nlinarith
      push_cast
      linarith
  · intro hk
    constructor
    · rw [hlen, hk]
    · have h1 : (splitOnNewline text).length = 1 := by
        rw [splitOnNewline_length, hk]
      rw [h1]
      simp [totalTextHeightOf]

/-- Witness for C6: the two-line text "A\nB" produces exactly 2 runs. -/
theorem c6_witness :
    (0 : ℚ) < 25 ∧
    (textRuns (fun _ _ => (0 : ℚ)) ['A', '\n', 'B'] 100 200 true 25
        ⟨0, 0, 0, 1⟩).length = 2 := by
  have h := c6_text_line_progression (fun _ _ => (0 : ℚ)) ['A', '\n', 'B']
    100 200 true 25 ⟨0, 0, 0, 1⟩ (by norm_num)
  refine ⟨by norm_num, ?_⟩
  rw [h.1]
  rfl

/-- C7: Panel placement and degenerate-input totality.  For every banner
size, including sizes below 2*margin, the panel is the 25mm-inset rectangle
with 0.5mm border; no validation occurs, so a width below 50mm yields a
negative panel width rather than a failure. -/
theorem c7_panel_placement_total (measure : List Char → ℚ → ℚ)
    (text : List Char) (centerText : Bool) (fontSizeMm : ℚ)
    (fgName bgName : String) (widthMm heightMm : ℚ) :
    (generatePlan measure text widthMm heightMm centerText fontSizeMm fgName
        bgName).panel =
      { x := mmToPoints 25, y := mmToPoints 25,
        width := mmToPoints widthMm - 2 * mmToPoints 25,
        height := mmToPoints heightMm - 2 * mmToPoints 25,
        color := getColor bgName, borderColor := getColor fgName,
        borderWidth := mmToPoints 0.5 } ∧
    (widthMm < 2 * 25 →
      (generatePlan measure text widthMm heightMm centerText fontSizeMm
          fgName bgName).panel.width < 0) := by
  constructor
  · rfl
  · intro hw
    show mmToPoints widthMm - 2 * mmToPoints 25 < 0
    have h2 : (2 : ℚ) * mmToPoints 25 = mmToPoints 50 := by
      rw [mmToPoints_mul_left]
      norm_num
    rw [h2, ← mmToPoints_sub]
    have : mmToPoints (widthMm - 50) < mmToPoints 0 :=
      mmToPoints_lt_iff.mpr (by linarith)
    simpa [mmToPoints_eq] using this

/-- Witness for C7: a 10x10mm banner yields a negative-width panel, with no
failure raised. -/
theorem c7_witness :
    (10 : ℚ) < 2 * 25 ∧
    (generatePlan (fun _ _ => (0 : ℚ)) [] 10 10 true 25 "black"
        "yellow").panel.width < 0 := by
  have h := c7_panel_placement_total (fun _ _ => (0 : ℚ)) [] true 25 "black"
    "yellow" 10 10
  exact ⟨by norm_num, h.2 (by norm_num)⟩

/-- C8: Left-aligned mode.  With center_text = false, every line's x is the
fixed mmToPoints(25 + 5) = mmToPoints 30, independent of the line's content
or width, and line i's baseline is pageHeight - mmToPoints 25 -
i*lineSpacing, anchored at the fixed 25mm margin. -/
theorem c8_left_aligned_mode (measure : List Char → ℚ → ℚ)
    (text : List Char) (pageWidth pageHeight fontSizeMm : ℚ) (fg : Cmyk)
    (i : ℕ)
    (hi : i < (textRuns measure text pageWidth pageHeight false fontSizeMm
        fg).length) :
    ((textRuns measure text pageWidth pageHeight false fontSizeMm fg).get
        ⟨i, hi⟩).x = mmToPoints 30 ∧
    ((textRuns measure text pageWidth pageHeight false fontSizeMm fg).get
        ⟨i, hi⟩).y =
      pageHeight - mmToPoints 25 - (i : ℚ) * (mmToPoints fontSizeMm * 1.3) := by
  rw [textRuns_get]
  constructor
  · show mmToPoints (marginMm + 5) = mmToPoints 30
    norm_num [marginMm]
  · show startYOf false pageHeight (mmToPoints fontSizeMm)
        (splitOnNewline text).length -
        (i : ℚ) * lineSpacingOf (mmToPoints fontSizeMm) = _
    simp only [startYOf, lineSpacingOf, Bool.false_eq_true, if_false]

/-- Witness for C8: with centring off, the first line of a one-line text
sits at x = mmToPoints 30 regardless of its measured width. -/
theorem c8_witness :
    ((textRuns (fun _ _ => (999 : ℚ)) ['A'] 100 200 false 25
        ⟨0, 0, 0, 1⟩).get ⟨0, by rw [textRuns_length]; exact Nat.one_pos⟩).x =
      mmToPoints 30 := by
  have h := c8_left_aligned_mode (fun _ _ => (999 : ℚ)) ['A'] 100 200 25
    ⟨0, 0, 0, 1⟩ 0 (by rw [textRuns_length]; exact Nat.one_pos)
  exact h.1

/-- C9: Unit conversion round-trip.  mmToPoints is the pure conversion
mm/25.4*72, and for positive x the inverse conversion recovers x exactly
(hence within any floating-point tolerance). -/
theorem c9_unit_conversion_round_trip (x : ℚ) (_hx : 0 < x) :
    mmToPoints x = x / 25.4 * 72 ∧ pointsToMm (mmToPoints x) = x :=
  ⟨rfl, pointsToMm_mmToPoints x⟩

/-- Witness for C9 at x = 3. -/
theorem c9_witness : (0 : ℚ) < 3 ∧ pointsToMm (mmToPoints 3) = 3 :=
  ⟨by norm_num, (c9_unit_conversion_round_trip 3 (by norm_num)).2⟩

/-- C10: Base-layer noninterference.  Two inputs differing only in the
colour names produce identical base rectangles: the base layer always spans
(0,0)-(width,height) and is always the constant white tuple (0,0,0,0),
never the configured background colour. -/
theorem c10_background_noninterference (measure : List Char → ℚ → ℚ)
    (text : List Char) (widthMm heightMm : ℚ) (centerText : Bool)
    (fontSizeMm : ℚ) (fg1 bg1 fg2 bg2 : String) :
    (generatePlan measure text widthMm heightMm centerText fontSizeMm fg1
        bg1).background =
      (generatePlan measure text widthMm heightMm centerText fontSizeMm fg2
        bg2).background ∧
    (generatePlan measure text widthMm heightMm centerText fontSizeMm fg1
        bg1).background =
      { x := 0, y := 0, width := mmToPoints widthMm,
        height := mmToPoints heightMm, color := ⟨0, 0, 0, 0⟩ } :=
  ⟨rfl, rfl⟩

end PdfBanner
